import Mathlib

/-!
Shallow embedding of `tests/evaluation_metrics.py` (EduRAG).

Modelling conventions:
* Python `str` is `List Char`; `.lower()` is `Char.toLower` mapped over the list.
* Python `float`/`int` values are embedded in `ℚ` (all arithmetic in the module
  is exact rational arithmetic except `np.std`, see `aggregate_results`).
* A retrieval-result dict (`Dict[str, Any]`) is an association list
  `List (String × Bool)` where the stored `Bool` is the Python truthiness of
  the stored value; `result.get(key, False)` is `relevantOf`.
* An evaluation record (`Dict[str, Any]` of metric name to number) is an
  association list `List (String × ℚ)`; Python dict keys are unique, so
  first-match lookup coincides with dict lookup.
* `re.findall(r'\b\w+\b', s)` is `findWords`: the maximal runs of word
  characters (alphanumeric or underscore).
* Python `str.split()` (no argument) is `pySplit`: maximal runs of
  non-whitespace characters.
* `needle in haystack` on strings is `containsSub`.
-/

namespace EduRAG

/-- Python strings, as lists of characters. -/
abbrev PyStr := List Char

/-- A retrieval-result dictionary: keys mapped to the truthiness of their value. -/
abbrev Doc := List (String × Bool)

/-- An evaluation record: metric names mapped to numeric values. -/
abbrev Record := List (String × ℚ)

/-- Embeds `result.get(relevant_key, False)` followed by Python truth-testing. -/
def relevantOf (d : Doc) (key : String) : Bool :=
  (d.lookup key).getD false

/-- The default value of the `relevant_key` parameter. -/
def is_relevant_key : String := "is_relevant"

/-- The loop of `calculate_mrr`: scan with a 1-indexed rank counter, return
`1.0 / rank` at the first relevant result, `0.0` if the list is exhausted. -/
def mrrGo (key : String) : ℕ → List Doc → ℚ
  | _, [] => 0
  | rank, d :: ds => if relevantOf d key then 1 / (rank : ℚ) else mrrGo key (rank + 1) ds

/-- Embeds `RetrievalMetrics.calculate_mrr` (the `relevant_key` parameter is explicit;
its Python default is `is_relevant_key`). -/
def calculate_mrr (results : List Doc) (key : String) : ℚ :=
  mrrGo key 1 results

/-- The loop of `calculate_hit_at_k` over the already-sliced `top_k`:
return `1.0` at the first relevant result, `0.0` if none. -/
def hitGo (key : String) : List Doc → ℚ
  | [] => 0
  | d :: ds => if relevantOf d key then 1 else hitGo key ds

/-- Embeds `RetrievalMetrics.calculate_hit_at_k`: Python slicing `results[:k]` is
`List.take k`, which is likewise total beyond the list length. -/
def calculate_hit_at_k (results : List Doc) (k : ℕ) (key : String) : ℚ :=
  hitGo key (results.take k)

/-- Embeds `RetrievalMetrics.calculate_precision_at_k`. -/
def calculate_precision_at_k (results : List Doc) (k : ℕ) (key : String) : ℚ :=
  if results = [] ∨ k = 0 then 0
  else
    let top_k := results.take k
    ((top_k.countP (fun r => relevantOf r key)) : ℚ) / (top_k.length : ℚ)

/-- A regex word character: `\w` = alphanumeric or underscore. -/
def wordChar (c : Char) : Bool := c.isAlphanum || c = '_'

/-- Accumulator loop splitting a string into maximal runs of characters
satisfying `keep` (the accumulator holds the current run, reversed). -/
def runsGo (keep : Char → Bool) : List Char → List Char → List (List Char)
  | acc, [] => if acc = [] then [] else [acc.reverse]
  | acc, c :: cs =>
    if keep c then runsGo keep (c :: acc) cs
    else if acc = [] then runsGo keep [] cs
    else acc.reverse :: runsGo keep [] cs

/-- Embeds `re.findall(r'\b\w+\b', s)`: the maximal runs of word characters. -/
def findWords (s : PyStr) : List PyStr := runsGo wordChar [] s

/-- Python `str.split()` with no argument: maximal runs of non-whitespace. -/
def pySplit (s : PyStr) : List PyStr := runsGo (fun c => !c.isWhitespace) [] s

/-- Embeds `GenerationMetrics.calculate_response_length`: `len(response.split())`. -/
def calculate_response_length (response : PyStr) : ℕ :=
  (pySplit response).length

/-- Python `str.lower()`. -/
def lowerStr (s : PyStr) : PyStr := s.map Char.toLower

/-- Python `" ".join(context)`. -/
def joinSpace : List PyStr → PyStr
  | [] => []
  | [s] => s
  | s :: rest => s ++ ' ' :: joinSpace rest

/-- Tests whether `needle` is a prefix of the second list. -/
def isPref : List Char → List Char → Bool
  | [], _ => true
  | _ :: _, [] => false
  | a :: as, b :: bs => a == b && isPref as bs

/-- Python substring containment `needle in haystack`. -/
def containsSub (needle : List Char) : List Char → Bool
  | [] => needle.isEmpty
  | c :: rest => isPref needle (c :: rest) || containsSub needle rest

/-- The stop-word set of `calculate_faithfulness`. -/
def stop_words_f : List PyStr :=
  (["the", "a", "an", "and", "or", "but", "in", "on", "at", "to", "for",
    "of", "with", "is", "are", "was", "were", "be", "been", "being",
    "have", "has", "had", "do", "does", "did", "will", "would", "could",
    "should", "may", "might", "can", "this", "that", "these", "those"]).map String.toList

/-- The content-word filter of `calculate_faithfulness`:
`[w for w in re.findall(r'\b\w+\b', response_lower) if w not in stop_words and len(w) > 3]`. -/
def contentWordsF (response : PyStr) : List PyStr :=
  (findWords (lowerStr response)).filter
    (fun w => !stop_words_f.contains w && decide (3 < w.length))

/-- Embeds `GenerationMetrics.calculate_faithfulness`. -/
def calculate_faithfulness (response : PyStr) (context : List PyStr) : ℚ :=
  if response = [] ∨ context = [] then 0
  else
    let context_text := lowerStr (joinSpace context)
    let response_words := contentWordsF response
    if response_words = [] then 1/2
    else
      let grounded := response_words.countP (fun w => containsSub w context_text)
      min ((grounded : ℚ) / (response_words.length : ℚ)) 1

/-- The stop-word set of `calculate_relevancy` (with question words). -/
def stop_words_r : List PyStr :=
  (["the", "a", "an", "and", "or", "but", "in", "on", "at", "to", "for",
    "of", "with", "is", "are", "was", "were", "be", "been", "being",
    "what", "how", "why", "when", "where", "who", "which", "explain",
    "describe", "discuss", "provide"]).map String.toList

/-- The content-word filter of `calculate_relevancy`:
`[w for w in re.findall(r'\b\w+\b', query_lower) if w not in stop_words and len(w) > 3]`. -/
def contentWordsR (query : PyStr) : List PyStr :=
  (findWords (lowerStr query)).filter
    (fun w => !stop_words_r.contains w && decide (3 < w.length))

/-- Embeds `GenerationMetrics.calculate_relevancy`. -/
def calculate_relevancy (query response : PyStr) : ℚ :=
  if query = [] ∨ response = [] then 0
  else
    let response_lower := lowerStr response
    let query_terms := contentWordsR query
    if query_terms = [] then 1/2
    else
      let matching := query_terms.countP (fun t => containsSub t response_lower)
      let relevancy_score := (matching : ℚ) / (query_terms.length : ℚ)
      let length_penalty : ℚ :=
        if response.length < 50 then 7/10
        else if 1000 < response.length then 9/10
        else 1
      min (relevancy_score * length_penalty) 1

/-- Python truthiness of the optional `reference` argument (`None` and the
empty string are falsy). -/
def refTruthy : Option PyStr → Bool
  | none => false
  | some r => !r.isEmpty

/-- Embeds `EvaluationReport.evaluate_single_query`. The advanced metrics call
external libraries (`bert_score`, `rouge_score`, `nltk`), out of scope per the
spec; the embedding abstracts them as an oracle `adv` taking the response and
reference and returning `(bertscore_f1, rouge_l_f1, bleu)`, matching exactly
which values the Python code merges into the record, in merge order. -/
def evaluate_single_query (adv : PyStr → PyStr → ℚ × ℚ × ℚ)
    (query response : PyStr) (context : List PyStr) (retrieved_docs : List Doc)
    (reference : Option PyStr) (include_advanced : Bool) : Record :=
  let results : Record :=
    [("mrr", calculate_mrr retrieved_docs is_relevant_key),
     ("hit@10", calculate_hit_at_k retrieved_docs 10 is_relevant_key),
     ("hit@5", calculate_hit_at_k retrieved_docs 5 is_relevant_key),
     ("faithfulness", calculate_faithfulness response context),
     ("relevancy", calculate_relevancy query response),
     ("response_length", (calculate_response_length response : ℚ))]
  match reference with
  | none => results
  | some ref =>
    if include_advanced && !ref.isEmpty then
      let m := adv response ref
      results ++ [("bertscore_f1", m.1), ("rouge_l_f1", m.2.1), ("bleu", m.2.2)]
    else results

/-- The standard metric names of `aggregate_results`. -/
def standardMetrics : List String :=
  ["mrr", "hit@10", "hit@5", "faithfulness", "relevancy", "response_length"]

/-- The metric list of `aggregate_results`: the advanced names are appended
exactly when the first record has the key `"bertscore_f1"`. -/
def trackedMetrics (results : List Record) : List String :=
  match results with
  | [] => standardMetrics
  | r :: _ =>
    if (r.lookup "bertscore_f1").isSome
    then standardMetrics ++ ["bertscore_f1", "rouge_l_f1", "bleu"]
    else standardMetrics

/-- Embeds `[r[metric] for r in results if metric in r and r[metric] > 0]`. -/
def qualifyingValues (results : List Record) (metric : String) : List ℚ :=
  results.filterMap (fun r =>
    match r.lookup metric with
    | some v => if 0 < v then some v else none
    | none => none)

/-- Embeds `np.mean`. -/
def npMean (vs : List ℚ) : ℚ := vs.sum / (vs.length : ℚ)

/-- The square of `np.std` (population standard deviation, `ddof = 0`):
the mean of the squared deviations from the mean. -/
def npStdSq (vs : List ℚ) : ℚ :=
  ((vs.map (fun v => (v - npMean vs) ^ 2)).sum) / (vs.length : ℚ)

/-- Embeds `EvaluationReport.aggregate_results`. The Python dict holds, for each
tracked metric with a non-empty qualifying value list, the entries
`avg_<m> = np.mean(values)` and `std_<m> = np.std(values)`; `np.std` is the
real square root of `npStdSq`, which is not a rational-valued operation, so
the embedding returns per emitted metric the triple
`(m, np.mean values, (np.std values)^2)` — the emitted keys and the mean are
exact, and the `std_<m>` entry is determined as `Real.sqrt` of the third
component. -/
def aggregate_results (results : List Record) : List (String × ℚ × ℚ) :=
  if results = [] then []
  else
    (trackedMetrics results).filterMap (fun m =>
      let values := qualifyingValues results m
      if values = [] then none
      else some (m, npMean values, npStdSq values))

/-- A result marked relevant under the default key. -/
def docR : Doc := [("is_relevant", true)]

/-- A result marked not relevant under the default key. -/
def docN : Doc := [("is_relevant", false)]

/-! ### Helper lemmas -/

theorem mrrGo_of_none (key : String) (l : List Doc) :
    ∀ n : ℕ, (∀ d ∈ l, relevantOf d key = false) → mrrGo key n l = 0 := by
  induction l with
  | nil => intro n _; rfl
  | cons d ds ih =>
    intro n h
    have hd : relevantOf d key = false := h d (by simp)
    simp only [mrrGo, hd, Bool.false_eq_true, if_false]
    exact ih (n + 1) (fun e he => h e (by simp [he]))

theorem mrrGo_append (key : String) (pre : List Doc) :
    ∀ (n : ℕ) (d : Doc) (post : List Doc),
      (∀ e ∈ pre, relevantOf e key = false) → relevantOf d key = true →
      mrrGo key n (pre ++ d :: post) = 1 / ((n + pre.length : ℕ) : ℚ) := by
  induction pre with
  | nil => intro n d post _ hd; simp [mrrGo, hd]
  | cons e es ih =>
    intro n d post hpre hd
    have he : relevantOf e key = false := hpre e (by simp)
    simp only [List.cons_append, mrrGo, he, Bool.false_eq_true, if_false, List.append_eq]
    rw [ih (n + 1) d post (fun x hx => hpre x (by simp [hx])) hd]
    have harith : n + 1 + es.length = n + (e :: es).length := by
      simp [List.length_cons]; omega
    rw [harith]

theorem mrrGo_cases (key : String) (l : List Doc) :
    ∀ n : ℕ, mrrGo key n l = 0 ∨
      ∃ r : ℕ, n ≤ r ∧ r < n + l.length ∧ mrrGo key n l = 1 / (r : ℚ) := by
  induction l with
  | nil => intro n; left; rfl
  | cons d ds ih =>
    intro n
    by_cases hd : relevantOf d key = true
    · right
      refine ⟨n, le_refl n, by simp, by simp [mrrGo, hd]⟩
    · have hd' : relevantOf d key = false := by simpa using hd
      rcases ih (n + 1) with h0 | ⟨r, hr1, hr2, hr3⟩
      · left; simp [mrrGo, hd', h0]
      · right
        refine ⟨r, by omega, ?_, by simp [mrrGo, hd', hr3]⟩
        simp only [List.length_cons]
        omega

theorem mrr_bounds (results : List Doc) (key : String) :
    0 ≤ calculate_mrr results key ∧ calculate_mrr results key ≤ 1 := by
  unfold calculate_mrr
  rcases mrrGo_cases key results 1 with h | ⟨r, hr1, _, hr3⟩
  · rw [h]; norm_num
  · rw [hr3]
    have hr : (1 : ℚ) ≤ (r : ℚ) := by exact_mod_cast hr1
    constructor
    · positivity
    · rw [div_le_one (by linarith)]
      exact hr

theorem hitGo_eq_any (key : String) (l : List Doc) :
    hitGo key l = if l.any (fun d => relevantOf d key) then 1 else 0 := by
  induction l with
  | nil => rfl
  | cons d ds ih =>
    by_cases hd : relevantOf d key = true
    · simp [hitGo, hd]
    · have hd' : relevantOf d key = false := by simpa using hd
      simp [hitGo, hd', ih]

theorem hit_bounds (results : List Doc) (k : ℕ) (key : String) :
    0 ≤ calculate_hit_at_k results k key ∧ calculate_hit_at_k results k key ≤ 1 := by
  unfold calculate_hit_at_k
  rw [hitGo_eq_any]
  split <;> norm_num

/-! ### Claim theorems: retrieval metrics -/

/-- C2: `calculate_mrr` returns `1/r*` where `r*` is the smallest 1-indexed
rank marked relevant (scanning in order: every earlier result is not
relevant), returns `0.0` if no result is relevant, and its value always lies
in `{0} ∪ {1/r : 1 ≤ r ≤ len(results)}`. -/
theorem calculate_mrr_spec (results : List Doc) :
    ((∀ d ∈ results, relevantOf d is_relevant_key = false) →
        calculate_mrr results is_relevant_key = 0) ∧
    (∀ (pre : List Doc) (d : Doc) (post : List Doc),
        results = pre ++ d :: post →
        (∀ e ∈ pre, relevantOf e is_relevant_key = false) →
        relevantOf d is_relevant_key = true →
        calculate_mrr results is_relevant_key = 1 / ((pre.length + 1 : ℕ) : ℚ)) ∧
    (calculate_mrr results is_relevant_key = 0 ∨
      ∃ r : ℕ, 1 ≤ r ∧ r ≤ results.length ∧
        calculate_mrr results is_relevant_key = 1 / (r : ℚ)) := by
  refine ⟨fun h => mrrGo_of_none _ _ 1 h, ?_, ?_⟩
  · intro pre d post hres hpre hd
    subst hres
    unfold calculate_mrr
    rw [mrrGo_append _ pre 1 d post hpre hd]
    have : 1 + pre.length = pre.length + 1 := Nat.add_comm _ _
    rw [this]
  · rcases mrrGo_cases is_relevant_key results 1 with h | ⟨r, h1, h2, h3⟩
    · exact Or.inl h
    · exact Or.inr ⟨r, h1, by omega, h3⟩

/-- Witness for C2: the mock list `[not relevant, relevant, not relevant]`
has its first relevant result at rank 2, so MRR is `1/2`. -/
theorem calculate_mrr_spec_witness :
    calculate_mrr [docN, docR, docN] is_relevant_key = 1/2 := by
  have h := (calculate_mrr_spec [docN, docR, docN]).2.1 [docN] docR [docN] rfl
      (by intro e he; simp at he; subst he; rfl) (by rfl)
  rw [h]
  norm_num

/-- C3: `calculate_precision_at_k` returns the fraction of the first `k`
results marked relevant (the denominator is the length of the slice
`results[:k]`, i.e. `min k len(results)`), and returns exactly `0.0`, without
raising, when the results list is empty or `k = 0`. -/
theorem calculate_precision_at_k_spec (results : List Doc) (k : ℕ) :
    ((results = [] ∨ k = 0) → calculate_precision_at_k results k is_relevant_key = 0) ∧
    (results ≠ [] → k ≠ 0 →
      calculate_precision_at_k results k is_relevant_key =
        ((results.take k).countP (fun r => relevantOf r is_relevant_key) : ℚ)
          / ((min k results.length : ℕ) : ℚ)) := by
  constructor
  · intro h
    simp [calculate_precision_at_k, h]
  · intro h1 h2
    have hng : ¬(results = [] ∨ k = 0) := by tauto
    simp only [calculate_precision_at_k, if_neg hng, List.length_take]

/-- Witness for C3: three relevant results followed by two irrelevant ones,
at `k = 5`, give precision `3/5`. -/
theorem calculate_precision_at_k_spec_witness :
    calculate_precision_at_k [docR, docR, docR, docN, docN] 5 is_relevant_key = 3/5 := by
  have h := (calculate_precision_at_k_spec [docR, docR, docR, docN, docN] 5).2
      (by simp) (by simp)
  rw [h]
  have hc : ([docR, docR, docR, docN, docN].take 5).countP
      (fun r => relevantOf r is_relevant_key) = 3 := by rfl
  rw [hc]
  norm_num

/-- C6: for a fixed results list, `calculate_hit_at_k` is monotonically
non-decreasing in `k`; it returns `1.0` exactly when some result among the
first `k` is relevant and `0.0` otherwise; and a `k` beyond the list length
is safe, agreeing with `k = len(results)`. -/
theorem calculate_hit_at_k_spec (results : List Doc) (k1 k2 k : ℕ) (h : k1 ≤ k2) :
    calculate_hit_at_k results k1 is_relevant_key ≤
        calculate_hit_at_k results k2 is_relevant_key ∧
    calculate_hit_at_k results k is_relevant_key =
      (if (results.take k).any (fun d => relevantOf d is_relevant_key) then 1 else 0) ∧
    (results.length ≤ k →
      calculate_hit_at_k results k is_relevant_key =
        calculate_hit_at_k results results.length is_relevant_key) := by
  refine ⟨?_, hitGo_eq_any _ _, ?_⟩
  · unfold calculate_hit_at_k
    rw [hitGo_eq_any, hitGo_eq_any]
    by_cases h1 : (results.take k1).any (fun d => relevantOf d is_relevant_key) = true
    · have h2 : (results.take k2).any (fun d => relevantOf d is_relevant_key) = true := by
        rcases List.any_eq_true.mp h1 with ⟨d, hd, hrel⟩
        exact List.any_eq_true.mpr ⟨d, List.take_subset_take_left results h hd, hrel⟩
      simp [h1, h2]
    · have h1' : ((results.take k1).any fun d => relevantOf d is_relevant_key) = false := by
        simpa using h1
      rw [h1']
      simp only [Bool.false_eq_true, if_false]
      split <;> norm_num
  · intro hk
    unfold calculate_hit_at_k
    rw [List.take_of_length_le hk, List.take_of_length_le (le_refl _)]

/-- Witness for C6: on `[not relevant, relevant, not relevant]`,
hit@1 is below hit@2 (the values are `0` and `1`). -/
theorem calculate_hit_at_k_spec_witness :
    calculate_hit_at_k [docN, docR, docN] 1 is_relevant_key ≤
      calculate_hit_at_k [docN, docR, docN] 2 is_relevant_key :=
  (calculate_hit_at_k_spec [docN, docR, docN] 1 2 2 (by norm_num)).1

/-- C9: a result dictionary lacking the relevance key is treated as not
relevant rather than raising, and whenever no result has the key bound to a
truthy value, `calculate_mrr` and `calculate_hit_at_k` return `0.0` and
`calculate_precision_at_k` counts zero relevant results (hence returns `0.0`). -/
theorem missing_relevance_key_spec (results : List Doc) (key : String)
    (h : ∀ d ∈ results, relevantOf d key = false) :
    (∀ d : Doc, d.lookup key = none → relevantOf d key = false) ∧
    calculate_mrr results key = 0 ∧
    (∀ k : ℕ, calculate_hit_at_k results k key = 0) ∧
    (∀ k : ℕ, (results.take k).countP (fun r => relevantOf r key) = 0) ∧
    (∀ k : ℕ, calculate_precision_at_k results k key = 0) := by
  have hcount : ∀ k : ℕ, (results.take k).countP (fun r => relevantOf r key) = 0 := by
    intro k
    rw [List.countP_eq_zero]
    intro d hd
    simp [h d (List.take_subset k results hd)]
  refine ⟨?_, mrrGo_of_none key results 1 h, ?_, hcount, ?_⟩
  · intro d hd
    simp [relevantOf, hd]
  · intro k
    unfold calculate_hit_at_k
    rw [hitGo_eq_any]
    have hany : (results.take k).any (fun d => relevantOf d key) = false := by
      rw [List.any_eq_false]
      intro d hd
      simp [h d (List.take_subset k results hd)]
    simp [hany]
  · intro k
    by_cases hg : results = [] ∨ k = 0
    · simp [calculate_precision_at_k, hg]
    · simp only [calculate_precision_at_k, if_neg hg]
      rw [hcount k]
      norm_num

/-- Witness for C9: a result whose dictionary has only an unrelated key
(no `"is_relevant"` at all) yields MRR `0`. -/
theorem missing_relevance_key_spec_witness :
    calculate_mrr [[("other", true)]] is_relevant_key = 0 :=
  (missing_relevance_key_spec [[("other", true)]] is_relevant_key
      (by intro d hd; simp at hd; subst hd; rfl)).2.1

theorem count_ratio_nonneg (c n : ℕ) : 0 ≤ (c : ℚ) / (n : ℚ) := by positivity

theorem count_ratio_le_one (c n : ℕ) (hc : c ≤ n) : (c : ℚ) / (n : ℚ) ≤ 1 := by
  rcases Nat.eq_zero_or_pos n with h | h
  · subst h; simp
  · rw [div_le_one (by exact_mod_cast h)]
    exact_mod_cast hc

theorem faithfulness_bounds (response : PyStr) (context : List PyStr) :
    0 ≤ calculate_faithfulness response context ∧
      calculate_faithfulness response context ≤ 1 := by
  simp only [calculate_faithfulness]
  split
  · norm_num
  · split
    · norm_num
    · constructor
      · exact le_min (count_ratio_nonneg _ _) (by norm_num)
      · exact min_le_right _ _

theorem relevancy_bounds (query response : PyStr) :
    0 ≤ calculate_relevancy query response ∧ calculate_relevancy query response ≤ 1 := by
  simp only [calculate_relevancy]
  split
  · norm_num
  · split
    · norm_num
    · constructor
      · refine le_min (mul_nonneg (count_ratio_nonneg _ _) ?_) (by norm_num)
        split
        · norm_num
        · split <;> norm_num
      · exact min_le_right _ _

/-! ### Claim theorems: generation metrics -/

/-- C4: `calculate_faithfulness` tokenizes the lower-cased response into word
tokens, drops the fixed stop-word set and tokens of length at most 3
(`contentWordsF`), and returns the fraction of the remaining words occurring
as a substring of the concatenated lower-cased context; it returns `0.0` when
the response or the context is empty, `0.5` when no content words remain,
and the result is always at most `1.0` (and non-negative). -/
theorem calculate_faithfulness_spec (response : PyStr) (context : List PyStr) :
    (response = [] ∨ context = [] → calculate_faithfulness response context = 0) ∧
    (response ≠ [] → context ≠ [] → contentWordsF response = [] →
      calculate_faithfulness response context = 1/2) ∧
    (response ≠ [] → context ≠ [] → contentWordsF response ≠ [] →
      calculate_faithfulness response context =
        ((contentWordsF response).countP
            (fun w => containsSub w (lowerStr (joinSpace context))) : ℚ)
          / ((contentWordsF response).length : ℚ)) ∧
    (0 ≤ calculate_faithfulness response context ∧
      calculate_faithfulness response context ≤ 1) := by
  refine ⟨?_, ?_, ?_, faithfulness_bounds response context⟩
  · intro h
    simp only [calculate_faithfulness, if_pos h]
  · intro h1 h2 h3
    have hng : ¬(response = [] ∨ context = []) := by tauto
    simp only [calculate_faithfulness, if_neg hng, if_pos h3]
  · intro h1 h2 h3
    have hng : ¬(response = [] ∨ context = []) := by tauto
    simp only [calculate_faithfulness, if_neg hng, if_neg h3]
    exact min_eq_left (count_ratio_le_one _ _ (List.countP_le_length _))

/-- Witness for C4: in `"alpha beta the gamma"` the content words are
`alpha`, `beta`, `gamma` (`the` is a stop word); against the context
`["beta gamma delta"]` exactly `beta` and `gamma` are grounded, giving `2/3`. -/
theorem calculate_faithfulness_spec_witness :
    calculate_faithfulness "alpha beta the gamma".toList ["beta gamma delta".toList] = 2/3 := by
  have h := (calculate_faithfulness_spec "alpha beta the gamma".toList
      ["beta gamma delta".toList]).2.2.1 (by decide) (by simp) (by decide)
  rw [h]
  have hc : (contentWordsF "alpha beta the gamma".toList).countP
      (fun w => containsSub w (lowerStr (joinSpace ["beta gamma delta".toList]))) = 2 := by rfl
  have hl : (contentWordsF "alpha beta the gamma".toList).length = 3 := by rfl
  rw [hc, hl]
  norm_num

/-- C5: `calculate_relevancy` computes the fraction of filtered query content
words (`contentWordsR`: stop/question words and tokens of length at most 3
removed) occurring as a substring of the lower-cased response, multiplies by
`0.7` when the response is shorter than 50 characters, by `0.9` when longer
than 1000, by `1.0` otherwise; it returns `0.0` for an empty query or
response, `0.5` when the query has no content words, and the result is always
at most `1.0` (and non-negative). -/
theorem calculate_relevancy_spec (query response : PyStr) :
    (query = [] ∨ response = [] → calculate_relevancy query response = 0) ∧
    (query ≠ [] → response ≠ [] → contentWordsR query = [] →
      calculate_relevancy query response = 1/2) ∧
    (query ≠ [] → response ≠ [] → contentWordsR query ≠ [] →
      calculate_relevancy query response =
        (((contentWordsR query).countP
              (fun t => containsSub t (lowerStr response)) : ℚ)
            / ((contentWordsR query).length : ℚ)) *
          (if response.length < 50 then 7/10
           else if 1000 < response.length then 9/10 else 1)) ∧
    (0 ≤ calculate_relevancy query response ∧ calculate_relevancy query response ≤ 1) := by
  refine ⟨?_, ?_, ?_, relevancy_bounds query response⟩
  · intro h
    simp only [calculate_relevancy, if_pos h]
  · intro h1 h2 h3
    have hng : ¬(query = [] ∨ response = []) := by tauto
    simp only [calculate_relevancy, if_neg hng, if_pos h3]
  · intro h1 h2 h3
    have hng : ¬(query = [] ∨ response = []) := by tauto
    simp only [calculate_relevancy, if_neg hng, if_neg h3]
    refine min_eq_left ?_
    have hr := count_ratio_le_one ((contentWordsR query).countP
        (fun t => containsSub t (lowerStr response)))
        ((contentWordsR query).length) (List.countP_le_length _)
    have hr0 := count_ratio_nonneg ((contentWordsR query).countP
        (fun t => containsSub t (lowerStr response))) ((contentWordsR query).length)
    have hp1 : (if response.length < 50 then (7:ℚ)/10
        else if 1000 < response.length then 9/10 else 1) ≤ 1 := by
      split
      · norm_num
      · split <;> norm_num
    have hp0 : (0:ℚ) ≤ (if response.length < 50 then (7:ℚ)/10
        else if 1000 < response.length then 9/10 else 1) := by
      split
      · norm_num
      · split <;> norm_num
    calc ((contentWordsR query).countP (fun t => containsSub t (lowerStr response)) : ℚ)
          / ((contentWordsR query).length : ℚ) *
          (if response.length < 50 then (7:ℚ)/10
           else if 1000 < response.length then 9/10 else 1)
        ≤ 1 * 1 := by
          exact mul_le_mul hr hp1 hp0 (by norm_num)
      _ = 1 := by norm_num

/-- Witness for C5: the query `"what does alpha mean"` has content words
`does`, `alpha`, `mean` (`what` is a stop word); `alpha` and `mean` occur in
`"alpha means something"` (21 characters, so the short-response penalty `0.7`
applies), giving `2/3 * 7/10 = 7/15`. -/
theorem calculate_relevancy_spec_witness :
    calculate_relevancy "what does alpha mean".toList "alpha means something".toList = 7/15 := by
  have h := (calculate_relevancy_spec "what does alpha mean".toList
      "alpha means something".toList).2.2.1 (by decide) (by decide) (by decide)
  rw [h]
  have hc : (contentWordsR "what does alpha mean".toList).countP
      (fun t => containsSub t (lowerStr "alpha means something".toList)) = 2 := by rfl
  have hl : (contentWordsR "what does alpha mean".toList).length = 3 := by rfl
  have hp : (if ("alpha means something".toList).length < 50 then (7:ℚ)/10
      else if 1000 < ("alpha means something".toList).length then 9/10 else 1) = 7/10 := by rfl
  rw [hc, hl, hp]
  norm_num

theorem evaluate_single_query_base (adv : PyStr → PyStr → ℚ × ℚ × ℚ)
    (query response : PyStr) (context : List PyStr) (retrieved_docs : List Doc)
    (reference : Option PyStr) (include_advanced : Bool) :
    ∃ tail : Record,
      evaluate_single_query adv query response context retrieved_docs reference
          include_advanced =
        [("mrr", calculate_mrr retrieved_docs is_relevant_key),
         ("hit@10", calculate_hit_at_k retrieved_docs 10 is_relevant_key),
         ("hit@5", calculate_hit_at_k retrieved_docs 5 is_relevant_key),
         ("faithfulness", calculate_faithfulness response context),
         ("relevancy", calculate_relevancy query response),
         ("response_length", (calculate_response_length response : ℚ))] ++ tail := by
  cases reference with
  | none => exact ⟨[], by simp [evaluate_single_query]⟩
  | some ref =>
    by_cases h : (include_advanced && !ref.isEmpty) = true
    · refine ⟨[("bertscore_f1", (adv response ref).1), ("rouge_l_f1", (adv response ref).2.1),
        ("bleu", (adv response ref).2.2)], ?_⟩
      simp only [evaluate_single_query, h, if_true]
    · have h' : (include_advanced && !ref.isEmpty) = false := by simpa using h
      refine ⟨[], ?_⟩
      simp [evaluate_single_query, h']

/-! ### Claim theorems: evaluation report -/

/-- C7: for every input, the record built by `evaluate_single_query` carries
the five ratio metrics `mrr`, `hit@10`, `hit@5`, `faithfulness`, `relevancy`,
each with a value in `[0, 1]`, and `response_length` bound to the (cast of
the) natural-number whitespace word count of the response, which is
non-negative. -/
theorem evaluate_single_query_spec (adv : PyStr → PyStr → ℚ × ℚ × ℚ)
    (query response : PyStr) (context : List PyStr) (retrieved_docs : List Doc)
    (reference : Option PyStr) (include_advanced : Bool) :
    (∃ v : ℚ, (evaluate_single_query adv query response context retrieved_docs reference
        include_advanced).lookup "mrr" = some v ∧ 0 ≤ v ∧ v ≤ 1) ∧
    (∃ v : ℚ, (evaluate_single_query adv query response context retrieved_docs reference
        include_advanced).lookup "hit@10" = some v ∧ 0 ≤ v ∧ v ≤ 1) ∧
    (∃ v : ℚ, (evaluate_single_query adv query response context retrieved_docs reference
        include_advanced).lookup "hit@5" = some v ∧ 0 ≤ v ∧ v ≤ 1) ∧
    (∃ v : ℚ, (evaluate_single_query adv query response context retrieved_docs reference
        include_advanced).lookup "faithfulness" = some v ∧ 0 ≤ v ∧ v ≤ 1) ∧
    (∃ v : ℚ, (evaluate_single_query adv query response context retrieved_docs reference
        include_advanced).lookup "relevancy" = some v ∧ 0 ≤ v ∧ v ≤ 1) ∧
    ((evaluate_single_query adv query response context retrieved_docs reference
        include_advanced).lookup "response_length" =
          some (((pySplit response).length : ℕ) : ℚ) ∧
      (0:ℚ) ≤ (((pySplit response).length : ℕ) : ℚ)) := by
  obtain ⟨tail, ht⟩ := evaluate_single_query_base adv query response context
    retrieved_docs reference include_advanced
  rw [ht]
  exact ⟨⟨_, rfl, mrr_bounds _ _⟩, ⟨_, rfl, hit_bounds _ _ _⟩, ⟨_, rfl, hit_bounds _ _ _⟩,
    ⟨_, rfl, faithfulness_bounds _ _⟩, ⟨_, rfl, relevancy_bounds _ _⟩,
    rfl, by positivity⟩

/-- C8: each of the six core metric functions reads nothing but its
arguments — the Python bodies use no global mutable state — so each embeds as
a total function, and two calls on identical inputs are definitionally
equal. -/
theorem metric_functions_deterministic :
    (∀ (results : List Doc) (key : String),
        calculate_mrr results key = calculate_mrr results key) ∧
    (∀ (results : List Doc) (k : ℕ) (key : String),
        calculate_hit_at_k results k key = calculate_hit_at_k results k key) ∧
    (∀ (results : List Doc) (k : ℕ) (key : String),
        calculate_precision_at_k results k key = calculate_precision_at_k results k key) ∧
    (∀ (response : PyStr) (context : List PyStr),
        calculate_faithfulness response context = calculate_faithfulness response context) ∧
    (∀ (query response : PyStr),
        calculate_relevancy query response = calculate_relevancy query response) ∧
    (∀ response : PyStr,
        calculate_response_length response = calculate_response_length response) :=
  ⟨fun _ _ => rfl, fun _ _ _ => rfl, fun _ _ _ => rfl,
   fun _ _ => rfl, fun _ _ => rfl, fun _ => rfl⟩

/-- C10: when `include_advanced` is false, or the reference is absent
(`None`) or the empty string, the record returned by `evaluate_single_query`
has exactly the six standard keys in order, and none of the advanced keys. -/
theorem evaluate_single_query_keys_spec (adv : PyStr → PyStr → ℚ × ℚ × ℚ)
    (query response : PyStr) (context : List PyStr) (retrieved_docs : List Doc)
    (reference : Option PyStr) (include_advanced : Bool)
    (h : include_advanced = false ∨ reference = none ∨ reference = some []) :
    ((evaluate_single_query adv query response context retrieved_docs reference
        include_advanced).map Prod.fst =
      ["mrr", "hit@10", "hit@5", "faithfulness", "relevancy", "response_length"]) ∧
    "bertscore_f1" ∉ (evaluate_single_query adv query response context retrieved_docs
        reference include_advanced).map Prod.fst ∧
    "rouge_l_f1" ∉ (evaluate_single_query adv query response context retrieved_docs
        reference include_advanced).map Prod.fst ∧
    "bleu" ∉ (evaluate_single_query adv query response context retrieved_docs
        reference include_advanced).map Prod.fst := by
  have hkeys : (evaluate_single_query adv query response context retrieved_docs reference
      include_advanced).map Prod.fst =
      ["mrr", "hit@10", "hit@5", "faithfulness", "relevancy", "response_length"] := by
    simp only [evaluate_single_query]
    rcases h with h | h | h
    · subst h
      cases reference <;> simp
    · subst h
      simp
    · subst h
      simp
  refine ⟨hkeys, ?_, ?_, ?_⟩ <;> rw [hkeys] <;> decide

/-- Witness for C10: with no reference supplied (and `include_advanced`
true), the record keys are exactly the six standard ones. -/
theorem evaluate_single_query_keys_spec_witness :
    (evaluate_single_query (fun _ _ => ((0:ℚ), (0:ℚ), (0:ℚ))) [] [] [] [] none true).map
        Prod.fst =
      ["mrr", "hit@10", "hit@5", "faithfulness", "relevancy", "response_length"] :=
  (evaluate_single_query_keys_spec (fun _ _ => ((0:ℚ), (0:ℚ), (0:ℚ))) [] [] [] [] none true
    (Or.inr (Or.inl rfl))).1

/-- C1: for non-empty record lists, `aggregate_results` emits an entry for a
tracked metric exactly when its qualifying value list (values from records
where the key is present and the value is strictly positive) is non-empty; the
emitted numbers are the arithmetic mean and the population standard deviation
(represented by its square, `npStdSq`) of those values; every collected value
is strictly positive and comes from a record holding the key; and a record
whose metric value is exactly `0` contributes nothing to that metric's
collection. -/
theorem aggregate_results_spec (results : List Record) (h : results ≠ []) :
    (∀ (m : String) (a s : ℚ),
        (m, a, s) ∈ aggregate_results results ↔
          m ∈ trackedMetrics results ∧ qualifyingValues results m ≠ [] ∧
          a = npMean (qualifyingValues results m) ∧
          s = npStdSq (qualifyingValues results m)) ∧
    (∀ (m : String) (v : ℚ), v ∈ qualifyingValues results m →
        0 < v ∧ ∃ r ∈ results, r.lookup m = some v) ∧
    (∀ (r : Record) (rest : List Record) (m : String), r.lookup m = some 0 →
        qualifyingValues (r :: rest) m = qualifyingValues rest m) := by
  refine ⟨?_, ?_, ?_⟩
  · intro m a s
    simp only [aggregate_results, if_neg h, List.mem_filterMap]
    constructor
    · rintro ⟨m₀, hm₀, hf⟩
      by_cases hq : qualifyingValues results m₀ = []
      · rw [if_pos hq] at hf
        cases hf
      · rw [if_neg hq] at hf
        injection hf with hf
        have h1 : m₀ = m := congrArg Prod.fst hf
        have h2 : npMean (qualifyingValues results m₀) = a := congrArg (fun p => p.2.1) hf
        have h3 : npStdSq (qualifyingValues results m₀) = s := congrArg (fun p => p.2.2) hf
        subst h1
        exact ⟨hm₀, hq, h2.symm, h3.symm⟩
    · rintro ⟨hm, hq, ha, hs⟩
      subst ha
      subst hs
      exact ⟨m, hm, by rw [if_neg hq]⟩
  · intro m v hv
    rcases List.mem_filterMap.mp hv with ⟨r, hr, hf⟩
    cases hl : r.lookup m with
    | none =>
      simp only [hl] at hf
      cases hf
    | some w =>
      simp only [hl] at hf
      by_cases hw : 0 < w
      · rw [if_pos hw] at hf
        injection hf with hwv
        subst hwv
        exact ⟨hw, r, hr, hl⟩
      · rw [if_neg hw] at hf
        cases hf
  · intro r rest m hl
    simp [qualifyingValues, List.filterMap_cons, hl]

/-- Witness for C1: over the two records `{mrr: 1/2}` and `{mrr: 0}` only the
first value qualifies, so the `mrr` entry is emitted with mean `1/2` and zero
variance. -/
theorem aggregate_results_spec_witness :
    ("mrr", (1:ℚ)/2, (0:ℚ)) ∈ aggregate_results [[("mrr", (1:ℚ)/2)], [("mrr", 0)]] := by
  refine ((aggregate_results_spec [[("mrr", (1:ℚ)/2)], [("mrr", 0)]] (by simp)).1
      "mrr" (1/2) 0).mpr ⟨?_, ?_, ?_, ?_⟩
  · decide
  · intro hc
    have : ((1:ℚ)/2) ∈ qualifyingValues [[("mrr", (1:ℚ)/2)], [("mrr", 0)]] "mrr" := by
      simp [qualifyingValues, List.filterMap_cons]
    rw [hc] at this
    cases this
  · show (1:ℚ)/2 = npMean (qualifyingValues [[("mrr", (1:ℚ)/2)], [("mrr", 0)]] "mrr")
    have hq : qualifyingValues [[("mrr", (1:ℚ)/2)], [("mrr", 0)]] "mrr" = [(1:ℚ)/2] := by
      simp [qualifyingValues, List.filterMap_cons]
    rw [hq]
    simp [npMean]
  · have hq : qualifyingValues [[("mrr", (1:ℚ)/2)], [("mrr", 0)]] "mrr" = [(1:ℚ)/2] := by
      simp [qualifyingValues, List.filterMap_cons]
    rw [hq]
    simp [npStdSq, npMean]

end EduRAG
